import Mathlib

/-!
Shallow embedding of the zgsm/costrict extension code relevant to the
auto-complete pipeline, the codebase-index manager and its downloader.

JavaScript strings are modelled as lists of characters (`Str`); JS
`startsWith` is `List.isPrefixOf`, `substring(n)` is `List.drop n`,
`toLowerCase` is a character-wise `Char.toLower` map, `split("\n")` is
`List.splitOn`.  All definitions follow the TypeScript sources; the single
spec-side definition (`versionLexGt`) is marked as such.
-/

namespace Zgsm

/-- Model of a JavaScript string: a sequence of characters. -/
abbrev Str := List Char

/-! ## auto-complete/core/completionProvider.ts -/

/-- Embeds `FillInAtCursorSuggestion`.  The TS fields `prefix` and `suffix`
are named `pre` and `suf` here because those words are reserved by Lean. -/
structure FillInAtCursorSuggestion where
  text : Str
  pre : Str
  suf : Str
  completionId : Str
deriving DecidableEq

/-- Embeds the constant `MAX_SUGGESTIONS_HISTORY = 20`. -/
def MAX_SUGGESTIONS_HISTORY : Nat := 20

/-- Embeds the body of the backwards loop in `findMatchingSuggestion`:
first try the exact prefix/suffix match, then the partial-typing match
(`prefix.startsWith(cached.prefix)`, same suffix, and the typed extension
`prefix.substring(cached.prefix.length)` is a prefix of the cached text). -/
def matchEntry (p s : Str) (e : FillInAtCursorSuggestion) : Option (Str × Str) :=
  if p = e.pre ∧ s = e.suf then
    some (e.text, e.completionId)
  else if e.text ≠ [] ∧ e.pre.isPrefixOf p ∧ s = e.suf then
    let typedContent := p.drop e.pre.length
    if typedContent.isPrefixOf e.text then
      some (e.text.drop typedContent.length, e.completionId)
    else
      none
  else
    none

/-- Embeds `findMatchingSuggestion`: the TS code scans the history array
from the last index (most recent) down to index 0 and returns the first
entry for which the loop body produces a match, so it is the first
`matchEntry` hit on the reversed list. -/
def findMatchingSuggestion (p s : Str) (suggestionsHistory : List FillInAtCursorSuggestion) :
    Option (Str × Str) :=
  suggestionsHistory.reverse.findSome? (matchEntry p s)

/-- Embeds `CompletionProvider.updateSuggestions`: skip when an existing
entry has the same `(text, prefix, suffix)` triple, otherwise push at the
end and drop the head (`shift`) when the bound is exceeded. -/
def updateSuggestions (suggestionsHistory : List FillInAtCursorSuggestion)
    (f : FillInAtCursorSuggestion) : List FillInAtCursorSuggestion :=
  if suggestionsHistory.any
      (fun e => e.text == f.text && e.pre == f.pre && e.suf == f.suf) then
    suggestionsHistory
  else
    let pushed := suggestionsHistory ++ [f]
    if MAX_SUGGESTIONS_HISTORY < pushed.length then pushed.tail else pushed

/-- Embeds `AutocompleteOutcome` (the wall-clock `time` field is omitted). -/
structure AutocompleteOutcome where
  completion : Str
  completionId : Str
  cacheHit : Bool
deriving DecidableEq

/-- Sampled values of `token.aborted` at the five points where
`provideInlineCompletionItems` / `fetchAndCacheSuggestions` read it:
step 3 (before preparing the LLM), step 5 (after the debounce), the race
check inside `fetchAndCacheSuggestions` (before the cache update), step 7
(after the fetch returns) and step 8 (the final check). -/
structure AbortSamples where
  atStart : Bool
  afterDebounce : Bool
  beforeCache : Bool
  afterFetch : Bool
  final : Bool
deriving DecidableEq

/-- Embeds `fetchAndCacheSuggestions`: after the network call resolves the
code re-checks the token and only updates the cache when it has not been
aborted.  `getFromLLM` builds the cached suggestion from the response text
and id together with the request's own prefix and suffix. -/
def fetchAndCacheSuggestions (suggestionsHistory : List FillInAtCursorSuggestion)
    (response : FillInAtCursorSuggestion) (abortedBeforeCache : Bool) :
    List FillInAtCursorSuggestion :=
  if abortedBeforeCache then suggestionsHistory
  else updateSuggestions suggestionsHistory response

/-- Embeds the control flow of `provideInlineCompletionItems` after the
logging bookkeeping: cancellation checks, LLM preparation (`llmOk` is
whether `_prepareLlm` produced a client), debounce, cache lookup, fetch,
and the post-fetch / final cancellation checks.  The network response is
given by its `text` and `completionId`; `getFromLLM` pairs them with the
request prefix and suffix.  Returns the outcome (`none` models
`undefined`) together with the suggestions history after the call. -/
def provideInlineCompletionItems (suggestionsHistory : List FillInAtCursorSuggestion)
    (p s : Str) (llmOk shouldDebounce : Bool) (a : AbortSamples)
    (responseText responseId : Str) :
    Option AutocompleteOutcome × List FillInAtCursorSuggestion :=
  if a.atStart then (none, suggestionsHistory)
  else if !llmOk then (none, suggestionsHistory)
  else if shouldDebounce then (none, suggestionsHistory)
  else if a.afterDebounce then (none, suggestionsHistory)
  else
    match findMatchingSuggestion p s suggestionsHistory with
    | some m =>
      if a.final then (none, suggestionsHistory)
      else (some ⟨m.1, m.2, true⟩, suggestionsHistory)
    | none =>
      let response : FillInAtCursorSuggestion := ⟨responseText, p, s, responseId⟩
      let suggestionsHistory' := fetchAndCacheSuggestions suggestionsHistory response a.beforeCache
      if a.afterFetch then (none, suggestionsHistory')
      else
        match findMatchingSuggestion p s suggestionsHistory' with
        | none => (none, suggestionsHistory')
        | some m =>
          if a.final then (none, suggestionsHistory')
          else (some ⟨m.1, m.2, false⟩, suggestionsHistory')

/-! ## codebase-index manager health check -/

/-- Embeds the constant `MAX_FAILURE_COUNT = 2` of `ZgsmCodebaseIndexManager`. -/
def MAX_FAILURE_COUNT : Nat := 2

/-- Outcome of a `restartClient` call as it affects the failure counter.
`ok`: the restart succeeded (the explicit reset in the success branch
runs).  `errAfterStop`: `restartClient` threw, but only after the re-run
of the initialisation already executed `stopHealthCheck`, which zeroes the
counter.  `errBeforeStop`: `restartClient` threw before reaching
`stopHealthCheck` (for example `ensureClientInited` threw, or
`checkAndUpgradeClient` returned "failed"), so nothing reset the counter. -/
inductive RestartPath
  | ok
  | errAfterStop
  | errBeforeStop
deriving DecidableEq

/-- Embeds `handleHealthCheckFailure`: increment the counter; when it
exceeds `MAX_FAILURE_COUNT` attempt `restartClient`, resetting the counter
only in the success branch (the catch branch just logs).  Returns the new
counter value and whether a restart was attempted. -/
def handleHealthCheckFailure (failureCount : Nat) (restart : RestartPath) : Nat × Bool :=
  let c := failureCount + 1
  if MAX_FAILURE_COUNT < c then
    match restart with
    | .ok => (0, true)
    | .errAfterStop => (0, true)
    | .errBeforeStop => (c, true)
  else
    (c, false)

/-- One tick of the health-check interval: either the combined check
passes (`client.isRunning()` active and the health endpoint reports
success), or it fails, in which case `restart` describes how a restart
attempt, if one is made, would go. -/
inductive HealthTick
  | success
  | failure (restart : RestartPath)
deriving DecidableEq

/-- Embeds `performHealthCheck`: a passing combined check resets the
failure counter to zero; any failure or thrown error goes to
`handleHealthCheckFailure`.  Returns the new counter and whether a
restart was attempted on this tick. -/
def performHealthCheck (failureCount : Nat) : HealthTick → Nat × Bool
  | .success => (0, false)
  | .failure r => handleHealthCheckFailure failureCount r

/-- Runs a sequence of health-check ticks; returns the final failure
counter and the total number of restart attempts made. -/
def runHealthChecks : Nat → List HealthTick → Nat × Nat
  | failureCount, [] => (failureCount, 0)
  | failureCount, t :: ts =>
    let step := performHealthCheck failureCount t
    let rest := runHealthChecks step.1 ts
    (rest.1, (if step.2 then 1 else 0) + rest.2)

/-! ## codebase-index/versionApi.ts -/

/-- Embeds `VersionId` with numeric `major`, `minor`, `micro` fields. -/
structure VersionId where
  major : Nat
  minor : Nat
  micro : Nat
deriving DecidableEq

/-- Embeds the comparison in `VersionApi.shouldUpdate` between the remote
latest version and the local current version. -/
def shouldUpdate (latest current : VersionId) : Bool :=
  if current.major < latest.major then true
  else if latest.major = current.major ∧ current.minor < latest.minor then true
  else if latest.major = current.major ∧ latest.minor = current.minor ∧
      current.micro < latest.micro then true
  else false

/-- Specification-side definition, written from the spec's words: strict
lexicographic order over the triple (major, minor, micro).  Used only to
compare against `shouldUpdate`. -/
def versionLexGt (a b : VersionId) : Bool :=
  decide (b.major < a.major ∨ (a.major = b.major ∧
    (b.minor < a.minor ∨ (a.minor = b.minor ∧ b.micro < a.micro))))

/-! ## codebase-index FileDownloader -/

/-- Embeds `String.prototype.toLowerCase` character-wise. -/
def strToLower (s : Str) : Str := s.map Char.toLower

/-- Result of `verifyFileChecksum`: whether the promise resolved, and
whether the downloaded file was unlinked on the way. -/
structure ChecksumVerification where
  ok : Bool
  fileDeleted : Bool
deriving DecidableEq

/-- Embeds `verifyFileChecksum`: compare the hex digest of the file with
the manifest checksum after lower-casing both; on mismatch unlink the file
and reject. -/
def verifyFileChecksum (actualChecksum expectedChecksum : Str) : ChecksumVerification :=
  if strToLower actualChecksum = strToLower expectedChecksum then
    ⟨true, false⟩
  else
    ⟨false, true⟩

/-- Whether `downloadClient` resolves with the target path or rejects. -/
inductive DownloadOutcome
  | delivered
  | rejected
deriving DecidableEq

/-- Embeds the verification phase of `downloadClient`: after the transfer
completes, `verifyFileChecksum` runs; its rejection propagates (wrapped)
out of `downloadClient`.  Returns the outcome and whether the downloaded
file was deleted. -/
def downloadClientChecksumPhase (actualChecksum expectedChecksum : Str) :
    DownloadOutcome × Bool :=
  let v := verifyFileChecksum actualChecksum expectedChecksum
  if v.ok then (.delivered, v.fileDeleted) else (.rejected, v.fileDeleted)

/-- Outcome of one `attemptDownload` promise in `downloadFileWithProgress`.
`httpStatusError`: non-200 status, rejected before a write stream exists.
`streamError` / `reqError`: the file-stream or request error handlers,
which unlink the target before rejecting; the flag records whether the
attempt had written a partial file.  `timeoutError`: the socket-timeout
handler, which destroys the request and rejects without unlinking. -/
inductive AttemptOutcome
  | ok
  | httpStatusError
  | streamError (wroteBytes : Bool)
  | reqError (wroteBytes : Bool)
  | timeoutError (wroteBytes : Bool)
deriving DecidableEq

/-- Whether the attempt's promise rejected. -/
def attemptFailed : AttemptOutcome → Bool
  | .ok => false
  | _ => true

/-- Whether a partial file is still on disk when the attempt's promise
settles: the stream/request error handlers unlink it first, the non-200
path never created it, and the timeout path leaves it in place. -/
def leftoverFileRemains : AttemptOutcome → Bool
  | .ok => false
  | .httpStatusError => false
  | .streamError _ => false
  | .reqError _ => false
  | .timeoutError w => w

/-- Embeds the default `maxRetries = 3` of `downloadFileWithProgress`. -/
def maxRetries : Nat := 3

/-- Trace of the retry loop in `downloadFileWithProgress`: whether it
resolved, how many attempts ran, the backoff delays slept between
attempts (in ms, in order), for each failed non-final attempt whether a
partial file was still on disk when the next attempt began, and whether a
partial file was left behind when the loop finally rejected. -/
structure DownloadTrace where
  resolved : Bool
  attemptsMade : Nat
  backoffsMs : List Nat
  leftoverBeforeRetry : List Bool
  leftoverAtEnd : Bool
deriving DecidableEq

/-- Embeds the retry loop of `downloadFileWithProgress`: attempts are
indexed from 0; a failure on attempt `maxRetries` rethrows, any earlier
failure sleeps `1000 * 2 ^ attempt` ms and retries.  `fuel` is the number
of attempts still allowed (`maxRetries + 1` at the top call). -/
def downloadLoop (attempts : Nat → AttemptOutcome) : Nat → Nat → DownloadTrace
  | _, 0 => ⟨false, 0, [], [], false⟩
  | attempt, fuel + 1 =>
    let o := attempts attempt
    if attemptFailed o then
      if fuel = 0 then
        ⟨false, 1, [], [], leftoverFileRemains o⟩
      else
        let rest := downloadLoop attempts (attempt + 1) fuel
        ⟨rest.resolved, rest.attemptsMade + 1, 1000 * 2 ^ attempt :: rest.backoffsMs,
          leftoverFileRemains o :: rest.leftoverBeforeRetry, rest.leftoverAtEnd⟩
    else
      ⟨true, 1, [], [], false⟩

/-- Embeds `downloadFileWithProgress` with its default retry budget. -/
def downloadFileWithProgress (attempts : Nat → AttemptOutcome) : DownloadTrace :=
  downloadLoop attempts 0 (maxRetries + 1)

/-! ## auto-complete/textAcceptanceTracker.ts -/

/-- Embeds `vscode.Position` (`isEqual` is structural equality). -/
structure Position where
  line : Nat
  character : Nat
deriving DecidableEq

/-- Embeds the `ExpectedGhostTextAcceptance` record. -/
structure ExpectedGhostTextAcceptance where
  documentUri : Str
  documentVersion : Nat
  text : Str
  startLine : Nat
  startCharacter : Nat
  endLine : Nat
  endCharacter : Nat
deriving DecidableEq

/-- Embeds a `vscode.TextDocument` as far as the tracker reads it: its
URI, its version, and `getText` over a range given by two positions
(`none` models `getText` throwing on an invalid range, which the tracker
catches and treats as no match). -/
structure TextDocument where
  uri : Str
  version : Nat
  getText : Position → Position → Option Str

/-- Embeds `setExpectedTextAcceptance`: split the accepted text on
newlines; a multi-line text ends at `startPosition.line + lines - 1` and
at the length of the last line, a single-line text ends on the same line
after `text.length` more characters. -/
def setExpectedTextAcceptance (doc : TextDocument) (text : Str) (startPosition : Position) :
    ExpectedGhostTextAcceptance :=
  let lines := text.splitOn '\n'
  if 1 < lines.length then
    { documentUri := doc.uri
      documentVersion := doc.version
      text := text
      startLine := startPosition.line
      startCharacter := startPosition.character
      endLine := startPosition.line + lines.length - 1
      endCharacter := (lines.getLastD []).length }
  else
    { documentUri := doc.uri
      documentVersion := doc.version
      text := text
      startLine := startPosition.line
      startCharacter := startPosition.character
      endLine := startPosition.line
      endCharacter := startPosition.character + text.length }

/-- Embeds `checkTextWasAccepted` acting on the tracker state
(`expectedAcceptance`, `none` when cleared): URI must match, the document
version must be strictly newer, the new cursor must equal the predicted
end position, and the text in the predicted range must equal the expected
text; on confirmation the expectation is cleared.  Returns the boolean
result together with the state after the call. -/
def checkTextWasAccepted (expectedAcceptance : Option ExpectedGhostTextAcceptance)
    (doc : TextDocument) (newPosition : Position) :
    Bool × Option ExpectedGhostTextAcceptance :=
  match expectedAcceptance with
  | none => (false, none)
  | some e =>
    if e.documentUri ≠ doc.uri then (false, some e)
    else if doc.version ≤ e.documentVersion then (false, some e)
    else
      let expectedEndPos : Position := ⟨e.endLine, e.endCharacter⟩
      if newPosition = expectedEndPos then
        let startPos : Position := ⟨e.startLine, e.startCharacter⟩
        match doc.getText startPos expectedEndPos with
        | some actualText =>
          if actualText = e.text then (true, none) else (false, some e)
        | none => (false, some e)
      else
        (false, some e)



/-! ## Helper lemmas -/

/-- Duplicate predicate used by `updateSuggestions`: same
(text, prefix, suffix) triple. -/
abbrev sameTriple (a b : FillInAtCursorSuggestion) : Prop :=
  a.text = b.text ∧ a.pre = b.pre ∧ a.suf = b.suf

theorem isPrefixOf_true_iff (l1 l2 : Str) : l1.isPrefixOf l2 = true ↔ l1 <+: l2 :=
  List.isPrefixOf_iff_prefix

theorem matchEntry_exact (p s : Str) (e : FillInAtCursorSuggestion)
    (hp : p = e.pre) (hs : s = e.suf) :
    matchEntry p s e = some (e.text, e.completionId) := by
  simp [matchEntry, hp, hs]

theorem matchEntry_typed (p s t : Str) (e : FillInAtCursorSuggestion)
    (hp : p = e.pre ++ t) (hs : s = e.suf) (ht : t <+: e.text) :
    matchEntry p s e = some (e.text.drop t.length, e.completionId) := by
  by_cases h0 : t = []
  · subst h0
    rw [List.append_nil] at hp
    rw [matchEntry_exact p s e hp hs, List.length_nil, List.drop_zero]
  · have htext : e.text ≠ [] := by
      intro h
      rw [h, List.prefix_nil] at ht
      exact h0 ht
    have hne : ¬(p = e.pre ∧ s = e.suf) := by
      rintro ⟨h1, -⟩
      rw [h1] at hp
      exact h0 (List.append_right_eq_self.mp hp.symm)
    have hpre : e.pre.isPrefixOf p = true :=
      (isPrefixOf_true_iff e.pre p).mpr ⟨t, hp.symm⟩
    have hdrop : p.drop e.pre.length = t := by
      rw [hp, List.drop_left]
    rw [matchEntry, if_neg hne, if_pos ⟨htext, hpre, hs⟩]
    simp only [hdrop, isPrefixOf_true_iff]
    rw [if_pos ht]

theorem matchEntry_eq_none_iff (p s : Str) (e : FillInAtCursorSuggestion) :
    matchEntry p s e = none ↔
      ¬((p = e.pre ∧ s = e.suf) ∨ ∃ t, p = e.pre ++ t ∧ s = e.suf ∧ t <+: e.text) := by
  constructor
  · intro h
    rintro (⟨h1, h2⟩ | ⟨t, h1, h2, h3⟩)
    · rw [matchEntry_exact p s e h1 h2] at h
      exact Option.noConfusion h
    · rw [matchEntry_typed p s t e h1 h2 h3] at h
      exact Option.noConfusion h
  · intro h
    by_cases h1 : p = e.pre ∧ s = e.suf
    · exact absurd (Or.inl h1) h
    · by_cases h2 : e.text ≠ [] ∧ e.pre.isPrefixOf p ∧ s = e.suf
      · obtain ⟨u, hu⟩ := (isPrefixOf_true_iff e.pre p).mp h2.2.1
        have hdrop : p.drop e.pre.length = u := by
          rw [← hu, List.drop_left]
        by_cases h3 : (p.drop e.pre.length).isPrefixOf e.text
        · exact absurd
            (Or.inr ⟨u, hu.symm, h2.2.2, by
              rw [← hdrop]; exact (isPrefixOf_true_iff _ _).mp h3⟩) h
        · simp only [matchEntry, if_neg h1, if_pos h2]
          rw [if_neg h3]
      · simp only [matchEntry, if_neg h1, if_neg h2]

theorem findSome?_append_of_none {α β : Type} (f : α → Option β) (l₁ l₂ : List α)
    (h : ∀ x ∈ l₁, f x = none) :
    (l₁ ++ l₂).findSome? f = l₂.findSome? f := by
  induction l₁ with
  | nil => rfl
  | cons a l ih =>
    rw [List.cons_append, List.findSome?_cons, h a (List.mem_cons_self a l),
      ih (fun x hx => h x (List.mem_cons_of_mem a hx))]

theorem updateSuggestions_dup (h : List FillInAtCursorSuggestion)
    (f : FillInAtCursorSuggestion) (hd : ∃ e ∈ h, sameTriple e f) :
    updateSuggestions h f = h := by
  rw [updateSuggestions, if_pos]
  obtain ⟨e, he, h1, h2, h3⟩ := hd
  exact List.any_eq_true.mpr ⟨e, he, by simp [h1, h2, h3]⟩

theorem updateSuggestions_fresh (h : List FillInAtCursorSuggestion)
    (f : FillInAtCursorSuggestion) (hnd : ∀ e ∈ h, ¬sameTriple e f)
    (hlen : h.length < MAX_SUGGESTIONS_HISTORY) :
    updateSuggestions h f = h ++ [f] := by
  rw [updateSuggestions, if_neg, if_neg]
  · simp only [List.length_append, List.length_singleton]
    omega
  · simpa [List.any_eq_true, sameTriple] using hnd

theorem updateSuggestions_overflow (h : List FillInAtCursorSuggestion)
    (f : FillInAtCursorSuggestion) (hnd : ∀ e ∈ h, ¬sameTriple e f)
    (hge : MAX_SUGGESTIONS_HISTORY ≤ h.length) :
    updateSuggestions h f = (h ++ [f]).tail := by
  rw [updateSuggestions, if_neg, if_pos]
  · simp only [List.length_append, List.length_singleton]
    omega
  · simpa [List.any_eq_true, sameTriple] using hnd

theorem updateSuggestions_length_le (h : List FillInAtCursorSuggestion)
    (f : FillInAtCursorSuggestion) (hlen : h.length ≤ MAX_SUGGESTIONS_HISTORY) :
    (updateSuggestions h f).length ≤ MAX_SUGGESTIONS_HISTORY := by
  by_cases hd : ∃ e ∈ h, sameTriple e f
  · rw [updateSuggestions_dup h f hd]
    exact hlen
  · push_neg at hd
    rcases Nat.lt_or_ge h.length MAX_SUGGESTIONS_HISTORY with hlt | hge
    · rw [updateSuggestions_fresh h f hd hlt]
      simp only [List.length_append, List.length_singleton]
      omega
    · rw [updateSuggestions_overflow h f hd hge]
      simp only [List.length_tail, List.length_append, List.length_singleton]
      omega

theorem foldl_updateSuggestions_length_le (l : List FillInAtCursorSuggestion)
    (h : List FillInAtCursorSuggestion) (hlen : h.length ≤ MAX_SUGGESTIONS_HISTORY) :
    (l.foldl updateSuggestions h).length ≤ MAX_SUGGESTIONS_HISTORY := by
  induction l generalizing h with
  | nil => exact hlen
  | cons f t ih => exact ih _ (updateSuggestions_length_le h f hlen)

theorem foldl_updateSuggestions_fresh (l h : List FillInAtCursorSuggestion)
    (hlen : h.length + l.length ≤ MAX_SUGGESTIONS_HISTORY)
    (hfresh : ∀ f ∈ l, ∀ e ∈ h, ¬sameTriple e f)
    (hpair : l.Pairwise (fun a b => ¬sameTriple a b)) :
    l.foldl updateSuggestions h = h ++ l := by
  induction l generalizing h with
  | nil => simp
  | cons f t ih =>
    simp only [List.length_cons] at hlen
    rw [List.foldl_cons,
      updateSuggestions_fresh h f (hfresh f (List.mem_cons_self f t)) (by omega)]
    have hfresh' : ∀ g ∈ t, ∀ e ∈ h ++ [f], ¬sameTriple e g := by
      intro g hg e he
      rcases List.mem_append.mp he with he | he
      · exact hfresh g (List.mem_cons_of_mem f hg) e he
      · rw [List.mem_singleton.mp he]
        exact (List.pairwise_cons.mp hpair).1 g hg
    rw [ih (h ++ [f])
      (by simp only [List.length_append, List.length_singleton]; omega)
      hfresh' (List.pairwise_cons.mp hpair).2]
    simp

theorem downloadLoop_attempts_le (attempts : Nat → AttemptOutcome) (a fuel : Nat) :
    (downloadLoop attempts a fuel).attemptsMade ≤ fuel := by
  induction fuel generalizing a with
  | zero => exact Nat.le_refl 0
  | succ n ih =>
    rw [downloadLoop]
    split_ifs with h1 h2
    · simp
    · simpa using Nat.succ_le_succ (ih (a + 1))
    · simp

/-! ## Claim theorems -/

/-- C1 counterexample: with an empty history and a cancellation that fires
after the network call resolves but before the race check inside
`fetchAndCacheSuggestions` (hence before the final check too),
`provideInlineCompletionItems` returns `undefined` but the resolved
suggestion is NOT appended to the suggestions history, refuting the claim
that caching of a successful fetch is unconditional. -/
theorem aborted_before_cache_check_not_cached_cex :
    (provideInlineCompletionItems [] "a".data "b".data true false
      ⟨false, false, true, true, true⟩ "xyz".data "id".data).1 = none ∧
    (⟨"xyz".data, "a".data, "b".data, "id".data⟩ : FillInAtCursorSuggestion) ∉
      (provideInlineCompletionItems [] "a".data "b".data true false
        ⟨false, false, true, true, true⟩ "xyz".data "id".data).2 := by
  decide

/-- C1 (amended): on a cache miss with cancellation firing only after the
network call resolves, `provideInlineCompletionItems` returns `undefined`
in every case, but the resolved suggestion is appended to the history only
when the token was not yet aborted at the race check inside
`fetchAndCacheSuggestions`; if it was already aborted there, the history
is left unchanged. -/
theorem provide_cancellation_caching_behavior
    (history : List FillInAtCursorSuggestion) (p s responseText responseId : Str)
    (a : AbortSamples)
    (h1 : a.atStart = false) (h2 : a.afterDebounce = false)
    (hmiss : findMatchingSuggestion p s history = none) :
    (a.beforeCache = true →
      provideInlineCompletionItems history p s true false a responseText responseId =
        (none, history)) ∧
    (a.beforeCache = false → a.afterFetch = true →
      provideInlineCompletionItems history p s true false a responseText responseId =
        (none, updateSuggestions history ⟨responseText, p, s, responseId⟩)) ∧
    (a.beforeCache = false → a.afterFetch = false → a.final = true →
      provideInlineCompletionItems history p s true false a responseText responseId =
        (none, updateSuggestions history ⟨responseText, p, s, responseId⟩)) := by
  refine ⟨?_, ?_, ?_⟩
  · intro hb
    simp [provideInlineCompletionItems, h1, h2, hmiss, fetchAndCacheSuggestions, hb]
  · intro hb hf
    simp [provideInlineCompletionItems, h1, h2, hmiss, fetchAndCacheSuggestions, hb, hf]
  · intro hb hf hfin
    simp only [provideInlineCompletionItems, h1, h2, hmiss, fetchAndCacheSuggestions,
      hb, hf, Bool.not_true, if_false, Bool.false_eq_true, if_true]
    cases hm : findMatchingSuggestion p s
        (updateSuggestions history ⟨responseText, p, s, responseId⟩) with
    | none => simp [hm]
    | some m => simp [hm, hfin]

/-- C1 witness for the amended theorem: cancellation firing between the
cache update and the post-fetch check yields `undefined` while the
suggestion is cached. -/
theorem provide_cancellation_caching_behavior_witness :
    provideInlineCompletionItems [] "a".data "b".data true false
      ⟨false, false, false, true, true⟩ "xyz".data "id".data =
      (none, [⟨"xyz".data, "a".data, "b".data, "id".data⟩]) :=
  (provide_cancellation_caching_behavior [] "a".data "b".data "xyz".data "id".data
    ⟨false, false, false, true, true⟩ rfl rfl rfl).2.1 rfl rfl

/-- C2: starting from a zero failure counter, three consecutive failing
health-check ticks trigger exactly one restart attempt (whatever each
restart attempt would do), one or two failing ticks trigger none, and a
passing tick resets the failure counter to zero. -/
theorem health_check_three_failures_one_restart :
    (∀ r1 r2 r3 : RestartPath,
      (runHealthChecks 0 [.failure r1, .failure r2, .failure r3]).2 = 1) ∧
    (∀ r1 : RestartPath, (runHealthChecks 0 [.failure r1]).2 = 0) ∧
    (∀ r1 r2 : RestartPath, (runHealthChecks 0 [.failure r1, .failure r2]).2 = 0) ∧
    (∀ failureCount : Nat, performHealthCheck failureCount .success = (0, false)) := by
  refine ⟨?_, ?_, ?_, fun _ => rfl⟩
  · intro r1 r2 r3
    cases r1 <;> cases r2 <;> cases r3 <;> decide
  · intro r1
    cases r1 <;> decide
  · intro r1 r2
    cases r1 <;> cases r2 <;> decide

/-- C3 counterexample: with the failure counter at `MAX_FAILURE_COUNT`, a
further failure triggers a restart attempt, and when `restartClient`
throws before reaching the re-initialisation's `stopHealthCheck` the
failure counter is NOT reset, refuting the claim that it is reset
regardless of the restart outcome. -/
theorem restart_error_keeps_counter_cex :
    (handleHealthCheckFailure MAX_FAILURE_COUNT RestartPath.errBeforeStop).2 = true ∧
    (handleHealthCheckFailure MAX_FAILURE_COUNT RestartPath.errBeforeStop).1 ≠ 0 := by
  decide

/-- C3 (amended): after a health-check-triggered restart attempt the
failure counter is reset when `restartClient` succeeds, and also when it
throws only after the re-initialisation already ran `stopHealthCheck`
(which zeroes the counter); when `restartClient` throws before that point
the counter keeps its incremented value. -/
theorem restart_attempt_counter_reset_paths (failureCount : Nat)
    (h : MAX_FAILURE_COUNT ≤ failureCount) :
    handleHealthCheckFailure failureCount .ok = (0, true) ∧
    handleHealthCheckFailure failureCount .errAfterStop = (0, true) ∧
    handleHealthCheckFailure failureCount .errBeforeStop = (failureCount + 1, true) := by
  have hlt : MAX_FAILURE_COUNT < failureCount + 1 := by omega
  simp [handleHealthCheckFailure, hlt]

/-- C3 witness: the amended theorem at counter value 2. -/
theorem restart_attempt_counter_reset_paths_witness :
    handleHealthCheckFailure 2 .ok = (0, true) ∧
    handleHealthCheckFailure 2 .errAfterStop = (0, true) ∧
    handleHealthCheckFailure 2 .errBeforeStop = (3, true) :=
  restart_attempt_counter_reset_paths 2 (by decide)

/-- C4: the matching rule of `findMatchingSuggestion`.  An entry whose
prefix and suffix equal the query returns its cached text verbatim; an
entry whose prefix the query prefix extends by some typed string `t` that
is itself a prefix of the cached text (suffix unchanged) returns the
cached text with `t` removed; and the whole lookup returns `null` exactly
when no history entry satisfies either rule. -/
theorem find_matching_suggestion_rules (p s : Str) (e : FillInAtCursorSuggestion)
    (history : List FillInAtCursorSuggestion) :
    (p = e.pre → s = e.suf → matchEntry p s e = some (e.text, e.completionId)) ∧
    (∀ t : Str, p = e.pre ++ t → s = e.suf → t <+: e.text →
      matchEntry p s e = some (e.text.drop t.length, e.completionId)) ∧
    (findMatchingSuggestion p s history = none ↔
      ∀ e' ∈ history, ¬((p = e'.pre ∧ s = e'.suf) ∨
        ∃ t, p = e'.pre ++ t ∧ s = e'.suf ∧ t <+: e'.text)) := by
  refine ⟨matchEntry_exact p s e, fun t h1 h2 h3 => matchEntry_typed p s t e h1 h2 h3, ?_⟩
  rw [findMatchingSuggestion, List.findSome?_eq_none_iff]
  constructor
  · intro h e' he'
    exact (matchEntry_eq_none_iff p s e').mp (h e' (List.mem_reverse.mpr he'))
  · intro h e' he'
    exact (matchEntry_eq_none_iff p s e').mpr (h e' (List.mem_reverse.mp he'))

/-- C4 witness: the spec's own example, a cached entry with prefix "x=",
text "foo()" and empty suffix; querying with prefix "x=fo" (the user has
typed "fo") returns the remainder "o()". -/
theorem find_matching_suggestion_rules_witness :
    matchEntry "x=fo".data "".data
      ⟨"foo()".data, "x=".data, "".data, "id1".data⟩ = some ("o()".data, "id1".data) :=
  (find_matching_suggestion_rules "x=fo".data "".data
    ⟨"foo()".data, "x=".data, "".data, "id1".data⟩ []).2.1 "fo".data (by decide) rfl (by decide)

/-- C5: the suggestions history stays within 20 entries under any sequence
of `updateSuggestions` calls starting from the empty history; inserting 21
pairwise-distinct suggestions leaves exactly the last 20 (the first
inserted entry is evicted, FIFO); and inserting a suggestion whose
(text, prefix, suffix) triple equals an existing entry leaves the history
unchanged. -/
theorem suggestions_history_bound_fifo_dedup :
    (∀ (h : List FillInAtCursorSuggestion) (f : FillInAtCursorSuggestion),
      h.length ≤ MAX_SUGGESTIONS_HISTORY →
      (updateSuggestions h f).length ≤ MAX_SUGGESTIONS_HISTORY) ∧
    (∀ l : List FillInAtCursorSuggestion,
      (l.foldl updateSuggestions []).length ≤ MAX_SUGGESTIONS_HISTORY) ∧
    (∀ l : List FillInAtCursorSuggestion, l.length = 21 →
      l.Pairwise (fun a b => ¬sameTriple a b) →
      l.foldl updateSuggestions [] = l.tail) ∧
    (∀ (h : List FillInAtCursorSuggestion) (f : FillInAtCursorSuggestion),
      (∃ e ∈ h, sameTriple e f) → updateSuggestions h f = h) := by
  refine ⟨updateSuggestions_length_le, ?_, ?_, updateSuggestions_dup⟩
  · intro l
    exact foldl_updateSuggestions_length_le l [] (by simp [MAX_SUGGESTIONS_HISTORY])
  · intro l hlen hpair
    have hne : l ≠ [] := by
      intro h
      rw [h] at hlen
      simp at hlen
    have hsplit : l.dropLast ++ [l.getLast hne] = l := List.dropLast_append_getLast hne
    have hdl : l.dropLast.length = 20 := by rw [List.length_dropLast, hlen]
    have hpair' : (l.dropLast ++ [l.getLast hne]).Pairwise (fun a b => ¬sameTriple a b) := by
      rw [hsplit]
      exact hpair
    rw [List.pairwise_append] at hpair'
    have hinit : l.dropLast.foldl updateSuggestions [] = l.dropLast := by
      have := foldl_updateSuggestions_fresh l.dropLast []
        (by rw [hdl]; decide) (fun f _ e he => absurd he (List.not_mem_nil e))
        hpair'.1
      simpa using this
    have hfresh : ∀ e ∈ l.dropLast, ¬sameTriple e (l.getLast hne) :=
      fun e he => hpair'.2.2 e he (l.getLast hne) (List.mem_singleton_self _)
    conv_lhs => rw [← hsplit]
    rw [List.foldl_append, hinit, List.foldl_cons, List.foldl_nil,
      updateSuggestions_overflow l.dropLast (l.getLast hne) hfresh (by rw [hdl]; decide)]
    conv_rhs => rw [← hsplit]

/-- C5 witness: 21 pairwise-distinct one-character suggestions inserted
into the empty history leave exactly the last 20. -/
theorem suggestions_history_bound_fifo_dedup_witness :
    (("abcdefghijklmnopqrstu".data.map
        (fun c => (⟨[c], [], [], []⟩ : FillInAtCursorSuggestion))).foldl
      updateSuggestions []) =
    ("bcdefghijklmnopqrstu".data.map
        (fun c => (⟨[c], [], [], []⟩ : FillInAtCursorSuggestion))) := by
  have h := suggestions_history_bound_fifo_dedup.2.2.1
    ("abcdefghijklmnopqrstu".data.map
      (fun c => (⟨[c], [], [], []⟩ : FillInAtCursorSuggestion)))
    (by decide) (by decide)
  rw [h]
  decide

/-- C6: `checkTextWasAccepted` returns true exactly when a pending
expectation exists, the document URI matches, the document version is
strictly newer than when the expectation was set, the new cursor equals
the predicted end position, and the text in the predicted range equals the
expected text; and on returning true it clears the expectation, so an
immediately repeated call (any document, any position) returns false. -/
theorem check_text_accepted_iff_and_at_most_once
    (st : Option ExpectedGhostTextAcceptance) (doc : TextDocument) (newPos : Position) :
    ((checkTextWasAccepted st doc newPos).1 = true ↔
      ∃ e, st = some e ∧ e.documentUri = doc.uri ∧ e.documentVersion < doc.version ∧
        newPos = ⟨e.endLine, e.endCharacter⟩ ∧
        doc.getText ⟨e.startLine, e.startCharacter⟩ ⟨e.endLine, e.endCharacter⟩ =
          some e.text) ∧
    ((checkTextWasAccepted st doc newPos).1 = true →
      (checkTextWasAccepted st doc newPos).2 = none ∧
      ∀ (doc' : TextDocument) (newPos' : Position),
        (checkTextWasAccepted (checkTextWasAccepted st doc newPos).2 doc' newPos').1 =
          false) := by
  cases st with
  | none => simp [checkTextWasAccepted]
  | some e =>
    by_cases h1 : e.documentUri ≠ doc.uri
    · constructor
      · simp only [checkTextWasAccepted, if_pos h1]
        constructor
        · intro h
          exact absurd h (by simp)
        · rintro ⟨e', he', hu, -⟩
          obtain rfl : e = e' := Option.some_injective _ he'
          exact absurd hu h1
      · simp [checkTextWasAccepted, if_pos h1]
    · push_neg at h1
      by_cases h2 : doc.version ≤ e.documentVersion
      · constructor
        · simp only [checkTextWasAccepted, if_neg (not_ne_iff.mpr h1), if_pos h2]
          constructor
          · intro h
            exact absurd h (by simp)
          · rintro ⟨e', he', -, hv, -⟩
            obtain rfl : e = e' := Option.some_injective _ he'
            omega
        · simp [checkTextWasAccepted, if_neg (not_ne_iff.mpr h1), if_pos h2]
      · push_neg at h2
        by_cases h3 : newPos = (⟨e.endLine, e.endCharacter⟩ : Position)
        · cases hgt : doc.getText ⟨e.startLine, e.startCharacter⟩ ⟨e.endLine, e.endCharacter⟩ with
          | some actualText =>
            by_cases h4 : actualText = e.text
            · have hres : checkTextWasAccepted (some e) doc newPos = (true, none) := by
                simp [checkTextWasAccepted, h1, Nat.not_le.mpr h2, h3, hgt, h4]
              rw [hres]
              refine ⟨⟨fun _ => ⟨e, rfl, h1, h2, h3, by rw [hgt, h4]⟩, fun _ => rfl⟩, ?_⟩
              intro
              exact ⟨rfl, fun doc' newPos' => rfl⟩
            · have hres : checkTextWasAccepted (some e) doc newPos = (false, some e) := by
                simp [checkTextWasAccepted, h1, Nat.not_le.mpr h2, h3, hgt, h4]
              rw [hres]
              constructor
              · simp only [Bool.false_eq_true, false_iff]
                rintro ⟨e', he', -, -, -, hg⟩
                obtain rfl : e = e' := Option.some_injective _ he'
                rw [hgt] at hg
                exact h4 (Option.some_injective _ hg)
              · simp
          | none =>
            have hres : checkTextWasAccepted (some e) doc newPos = (false, some e) := by
              simp [checkTextWasAccepted, h1, Nat.not_le.mpr h2, h3, hgt]
            rw [hres]
            constructor
            · simp only [Bool.false_eq_true, false_iff]
              rintro ⟨e', he', -, -, -, hg⟩
              obtain rfl : e = e' := Option.some_injective _ he'
              rw [hgt] at hg
              exact Option.noConfusion hg
            · simp
        · have hres : checkTextWasAccepted (some e) doc newPos = (false, some e) := by
            simp [checkTextWasAccepted, h1, Nat.not_le.mpr h2, h3]
          rw [hres]
          constructor
          · simp only [Bool.false_eq_true, false_iff]
            rintro ⟨e', he', -, -, hp, -⟩
            obtain rfl : e = e' := Option.some_injective _ he'
            exact h3 hp
          · simp

/-- C6 witness: a ghost text "ab" accepted at position (0,0) of a
one-line document; the acceptance check at the predicted end (0,2) on the
bumped document version succeeds and clears the expectation. -/
theorem check_text_accepted_iff_and_at_most_once_witness :
    (checkTextWasAccepted
      (some (setExpectedTextAcceptance ⟨"u".data, 1, fun _ _ => none⟩ "ab".data ⟨0, 0⟩))
      ⟨"u".data, 2, fun p q =>
        if p = ⟨0, 0⟩ ∧ q = ⟨0, 2⟩ then some "ab".data else none⟩
      ⟨0, 2⟩).2 = none :=
  ((check_text_accepted_iff_and_at_most_once
    (some (setExpectedTextAcceptance ⟨"u".data, 1, fun _ _ => none⟩ "ab".data ⟨0, 0⟩))
    ⟨"u".data, 2, fun p q =>
      if p = ⟨0, 0⟩ ∧ q = ⟨0, 2⟩ then some "ab".data else none⟩
    ⟨0, 2⟩).2 (by decide)).1

/-- C7: `shouldUpdate` on remote {1,2,0} against local {1,1,9} is true,
equal versions give false, a higher micro alone gives true, and in general
`shouldUpdate` coincides with strict lexicographic comparison over
(major, minor, micro), so a lower-order field never decides once a
higher-order field differs. -/
theorem should_update_lexicographic :
    shouldUpdate ⟨1, 2, 0⟩ ⟨1, 1, 9⟩ = true ∧
    (∀ v : VersionId, shouldUpdate v v = false) ∧
    (∀ M m k : Nat, shouldUpdate ⟨M, m, k + 1⟩ ⟨M, m, k⟩ = true) ∧
    (∀ a b : VersionId, shouldUpdate a b = versionLexGt a b) := by
  refine ⟨by decide, ?_, ?_, ?_⟩
  · intro v
    simp [shouldUpdate]
  · intro M m k
    simp [shouldUpdate]
  · intro a b
    rw [Bool.eq_iff_iff]
    simp only [shouldUpdate, versionLexGt, decide_eq_true_eq]
    split_ifs with h1 h2 h3 <;> simp <;> omega

/-- C8: the downloaded file's hash is compared to the manifest checksum
after lower-casing both sides; verification succeeds with the file kept
exactly when the lowered digests agree, and rejects the download with the
file deleted exactly when they disagree. -/
theorem checksum_case_insensitive_verify (actual expected : Str) :
    ((verifyFileChecksum actual expected).ok = true ∧
      (verifyFileChecksum actual expected).fileDeleted = false ∧
      downloadClientChecksumPhase actual expected = (.delivered, false) ↔
        strToLower actual = strToLower expected) ∧
    ((verifyFileChecksum actual expected).ok = false ∧
      (verifyFileChecksum actual expected).fileDeleted = true ∧
      downloadClientChecksumPhase actual expected = (.rejected, true) ↔
        strToLower actual ≠ strToLower expected) := by
  unfold downloadClientChecksumPhase verifyFileChecksum
  split_ifs with h <;> simp [h]

/-- C9 counterexample: when every attempt fails by socket timeout with a
partially written file, the partial file is still on disk each time the
next attempt begins (and when the whole operation finally rejects),
refuting the claim that the partial file is always deleted between
attempts. -/
theorem download_timeout_leftover_cex :
    downloadFileWithProgress (fun _ => AttemptOutcome.timeoutError true) =
      ⟨false, 4, [1000, 2000, 4000], [true, true, true], true⟩ ∧
    true ∈ (downloadFileWithProgress
      (fun _ => AttemptOutcome.timeoutError true)).leftoverBeforeRetry := by
  exact ⟨rfl, by decide⟩

/-- C9 (amended): the downloader makes at most `maxRetries + 1 = 4`
attempts; when all four fail it rejects after sleeping 1000·2^attempt ms
between consecutive attempts, and whether a partial file survives between
attempts is per failure path: request errors and stream errors delete it,
a non-200 response never wrote one, while a timeout leaves any partially
written file in place. -/
theorem download_retry_backoff_cleanup :
    (∀ attempts : Nat → AttemptOutcome,
      (downloadFileWithProgress attempts).attemptsMade ≤ maxRetries + 1) ∧
    (∀ w : Bool,
      leftoverFileRemains (.streamError w) = false ∧
      leftoverFileRemains (.reqError w) = false ∧
      leftoverFileRemains .httpStatusError = false ∧
      leftoverFileRemains (.timeoutError w) = w) ∧
    (∀ attempts : Nat → AttemptOutcome,
      attemptFailed (attempts 0) = true → attemptFailed (attempts 1) = true →
      attemptFailed (attempts 2) = true → attemptFailed (attempts 3) = true →
      downloadFileWithProgress attempts =
        ⟨false, 4, [1000, 2000, 4000],
          [leftoverFileRemains (attempts 0), leftoverFileRemains (attempts 1),
            leftoverFileRemains (attempts 2)],
          leftoverFileRemains (attempts 3)⟩) := by
  refine ⟨?_, fun w => ⟨rfl, rfl, rfl, rfl⟩, ?_⟩
  · intro attempts
    exact downloadLoop_attempts_le attempts 0 (maxRetries + 1)
  · intro attempts h0 h1 h2 h3
    show downloadLoop attempts 0 4 = _
    rw [downloadLoop]
    simp only [h0, if_true, if_pos]
    rw [downloadLoop]
    simp only [h1]
    rw [downloadLoop]
    simp only [h2]
    rw [downloadLoop]
    simp only [h3]
    norm_num

/-- C9 witness: four request-error failures, each deleting its partial
file, end with a rejection after backoffs of 1000, 2000 and 4000 ms and
no partial file left between attempts or at the end. -/
theorem download_retry_backoff_cleanup_witness :
    downloadFileWithProgress (fun _ => AttemptOutcome.reqError true) =
      ⟨false, 4, [1000, 2000, 4000], [false, false, false], false⟩ :=
  download_retry_backoff_cleanup.2.2 (fun _ => AttemptOutcome.reqError true)
    rfl rfl rfl rfl

/-- C10: when an entry matches and every entry inserted after it does not,
`findMatchingSuggestion` returns that entry's match: the history is
scanned from the most recent entry backwards and the first match wins. -/
theorem find_matching_newest_first (p s : Str)
    (older newer : List FillInAtCursorSuggestion) (e : FillInAtCursorSuggestion)
    (m : Str × Str) (he : matchEntry p s e = some m)
    (hnewer : ∀ e' ∈ newer, matchEntry p s e' = none) :
    findMatchingSuggestion p s (older ++ e :: newer) = some m := by
  rw [findMatchingSuggestion, List.reverse_append, List.reverse_cons, List.append_assoc,
    findSome?_append_of_none (matchEntry p s) newer.reverse _
      (fun x hx => hnewer x (List.mem_reverse.mp hx))]
  simp [List.findSome?_cons, he]

/-- C10 witness: two cached entries for the same (prefix, suffix); the
lookup returns the more recently inserted one's text. -/
theorem find_matching_newest_first_witness :
    findMatchingSuggestion "p".data "s".data
      [⟨"old".data, "p".data, "s".data, "idA".data⟩,
        ⟨"new".data, "p".data, "s".data, "idB".data⟩] =
      some ("new".data, "idB".data) :=
  find_matching_newest_first "p".data "s".data
    [⟨"old".data, "p".data, "s".data, "idA".data⟩] []
    ⟨"new".data, "p".data, "s".data, "idB".data⟩ ("new".data, "idB".data)
    (by decide) (fun e' he' => absurd he' (List.not_mem_nil e'))

end Zgsm
